import Mathlib

/-
Verification of the `monzo_py` transaction loader
(`src/monzo_py/monzo_transactions.py`).

The development shallowly embeds the two behavioural cores of the module:

* the per-cell type coercion and table construction pipeline
  (`_get_type_converters`, `_convert_data_columns`, `_create_pyarrow_table`,
  `_handle_empty_data`, `_validate_data_for_database`, `duck_db`), and
* the OAuth credential lifecycle (`_token_exists`,
  `_add_credentials_from_token`, `_refresh_token`, `_save_credentials`,
  `_add_credentials_from_secret`, `credentials`, `clear_credentials`)
  together with the lazy `data` accessor.

Python cells are modelled as `Option String` (`none` is Python `None`).
Exceptions are modelled with `Except`; external collaborators (the system
keyring, the token-refresh endpoint, the interactive OAuth flow) are modelled
by a `World` record describing their outcomes, and every externally visible
action is recorded in an ordered trace of `Event`s.

Library behaviour embedded from CPython semantics (the module calls into
`decimal.Decimal` and `datetime.datetime.strptime`):

* `decimal.Decimal(str)` strips leading/trailing whitespace, drops
  underscores, and accepts the decimal numeric-string grammar
  (sign? digits [. digits] [exponent] | infinity/nan forms); on any other
  string it raises `decimal.InvalidOperation`, which derives from
  `ArithmeticError`, NOT from `ValueError`.  Digits are modelled as ASCII.
* `strptime(v, "%d/%m/%Y")` matches day `3[01]|[12]\d|0[1-9]|[1-9]`,
  month `1[0-2]|0[1-9]|[1-9]`, year exactly four digits, separated by `/`
  with nothing left over, then validates the calendar date
  (`datetime.date` bounds, leap years).
* `strptime(v, "%H:%M:%S")` matches hour `2[0-3]|[0-1]\d|\d`,
  minute `[0-5]\d|\d`, second `6[01]|[0-5]\d|\d`, then `datetime.time`
  rejects seconds 60 and 61.  Failures raise `ValueError`.
-/

/-! ## Python values and exceptions -/

/-- Exceptions that the embedded code can raise.  `invalidOperation` stands
for `decimal.InvalidOperation` (an `ArithmeticError`), `valueError` for
`ValueError` (also used for the `json`/keyring failures that the module
re-raises as `ValueError`), `refreshError` for `google.auth`'s
`RefreshError`. -/
inductive PyExn
  | invalidOperation
  | valueError
  | refreshError
deriving DecidableEq, Repr

/-- A `decimal.Decimal` value: sign, coefficient digits (as a number) and
exponent, or one of the special forms. -/
inductive PyDecimal
  | num (neg : Bool) (coeff : Nat) (exp : Int)
  | inf (neg : Bool)
  | nan (signaling : Bool) (neg : Bool) (payload : Nat)
deriving DecidableEq, Repr

/-- A value stored in one cell of the constructed columnar table. -/
inductive PyValue
  | vnull
  | vstr (s : String)
  | vdec (d : PyDecimal)
  | vdate (y m d : Nat)
  | vtime (h mi s : Nat)
deriving DecidableEq, Repr

/-- A raw spreadsheet cell: a string, or Python `None`. -/
abbrev Cell := Option String

/-- A raw spreadsheet row as returned by the remote source. -/
abbrev Row := List Cell

/-! ## CPython `decimal.Decimal` string parsing -/

/-- Characters stripped from the ends of a numeric string by
`decimal.Decimal` (ASCII whitespace). -/
def isPyWs (c : Char) : Bool :=
  c == ' ' || c == '\t' || c == '\n' || c == Char.ofNat 11 ||
    c == Char.ofNat 12 || c == '\r'

/-- Numeric value of a run of ASCII digits. -/
def natOfDigits (cs : List Char) : Nat :=
  cs.foldl (fun n c => 10 * n + (c.toNat - '0'.toNat)) 0

/-- Consume an optional leading sign; returns `true` for `-`. -/
def parseSignChars : List Char → Bool × List Char
  | '+' :: cs => (false, cs)
  | '-' :: cs => (true, cs)
  | cs => (false, cs)

/-- Parse the optional exponent suffix of a decimal numeric string
(empty, or `e`/`E`, optional sign, one or more digits). -/
def parseExpPart : List Char → Option Int
  | [] => some 0
  | c :: cs =>
    if c = 'e' ∨ c = 'E' then
      let (eneg, ds) := parseSignChars cs
      if ds ≠ [] ∧ ds.all Char.isDigit then
        some (if eneg then -(natOfDigits ds : Int) else (natOfDigits ds : Int))
      else none
    else none

/-- Parse the numeric (non-special) body of a decimal numeric string,
after the sign: `digits [. digits]` or `. digits`, then an optional
exponent. -/
def parseNumericBody (neg : Bool) (cs : List Char) : Option PyDecimal :=
  let intPart := cs.takeWhile Char.isDigit
  let rest := cs.drop intPart.length
  match rest with
  | '.' :: rest2 =>
    let frac := rest2.takeWhile Char.isDigit
    let rest3 := rest2.drop frac.length
    if intPart = [] ∧ frac = [] then none
    else
      match parseExpPart rest3 with
      | some e => some (.num neg (natOfDigits (intPart ++ frac)) (e - frac.length))
      | none => none
  | _ =>
    if intPart = [] then none
    else
      match parseExpPart rest with
      | some e => some (.num neg (natOfDigits intPart) e)
      | none => none

/-- Parse the special forms `Infinity`, `Inf`, `NaN`, `sNaN` (with optional
digit payload), case-insensitively, after the sign. -/
def parseSpecialBody (neg : Bool) (cs : List Char) : Option PyDecimal :=
  let ls := cs.map Char.toLower
  if ls = "inf".data ∨ ls = "infinity".data then some (.inf neg)
  else if ls.take 3 = "nan".data ∧ (ls.drop 3).all Char.isDigit then
    some (.nan false neg (natOfDigits (ls.drop 3)))
  else if ls.take 4 = "snan".data ∧ (ls.drop 4).all Char.isDigit then
    some (.nan true neg (natOfDigits (ls.drop 4)))
  else none

/-- `decimal.Decimal(s)` for a string argument: `some` value on success,
`none` when CPython raises `decimal.InvalidOperation`. -/
def pyDecimalOfString (s : String) : Option PyDecimal :=
  let stripped := ((s.data.dropWhile isPyWs).reverse.dropWhile isPyWs).reverse
  let cs := stripped.filter (fun c => c ≠ '_')
  let (neg, body) := parseSignChars cs
  match parseNumericBody neg body with
  | some d => some d
  | none => parseSpecialBody neg body

/-! ## CPython `strptime` for the two formats used by the module -/

/-- Split a character list on a separator, Python `str.split(sep)` style:
the empty list yields one empty field. -/
def splitOnChar (sep : Char) : List Char → List (List Char)
  | [] => [[]]
  | c :: rest =>
    let r := splitOnChar sep rest
    if c = sep then [] :: r
    else
      match r with
      | [] => [[c]]
      | g :: gs => (c :: g) :: gs

/-- All characters are ASCII digits. -/
def allDigits (cs : List Char) : Bool := cs.all Char.isDigit

/-- `%d` field: `3[01]|[12]\d|0[1-9]|[1-9]`. -/
def dayFieldOK (cs : List Char) : Bool :=
  allDigits cs &&
    ((cs.length == 1 && 1 ≤ natOfDigits cs) ||
      (cs.length == 2 && 1 ≤ natOfDigits cs && natOfDigits cs ≤ 31))

/-- `%m` field: `1[0-2]|0[1-9]|[1-9]`. -/
def monthFieldOK (cs : List Char) : Bool :=
  allDigits cs &&
    ((cs.length == 1 && 1 ≤ natOfDigits cs) ||
      (cs.length == 2 && 1 ≤ natOfDigits cs && natOfDigits cs ≤ 12))

/-- `%Y` field: exactly four digits. -/
def yearFieldOK (cs : List Char) : Bool := allDigits cs && cs.length == 4

/-- `%H` field: `2[0-3]|[0-1]\d|\d`. -/
def hourFieldOK (cs : List Char) : Bool :=
  allDigits cs && ((cs.length == 1) || (cs.length == 2 && natOfDigits cs ≤ 23))

/-- `%M` field: `[0-5]\d|\d`. -/
def minuteFieldOK (cs : List Char) : Bool :=
  allDigits cs && ((cs.length == 1) || (cs.length == 2 && natOfDigits cs ≤ 59))

/-- `%S` field: `6[01]|[0-5]\d|\d` (the regex admits leap seconds 60/61;
`datetime.time` rejects them later). -/
def secondFieldOK (cs : List Char) : Bool :=
  allDigits cs && ((cs.length == 1) || (cs.length == 2 && natOfDigits cs ≤ 61))

/-- Gregorian leap year, as used by `datetime.date`. -/
def isLeapYear (y : Nat) : Bool :=
  y % 4 == 0 && (y % 100 != 0 || y % 400 == 0)

/-- Days in a month, as validated by `datetime.date`. -/
def daysInMonth (y m : Nat) : Nat :=
  if m = 2 then (if isLeapYear y then 29 else 28)
  else if m = 4 ∨ m = 6 ∨ m = 9 ∨ m = 11 then 30
  else 31

/-- `datetime.datetime.strptime(s, "%d/%m/%Y").date()`:
`some (year, month, day)` on success, `none` when CPython raises
`ValueError` (pattern mismatch or invalid calendar date). -/
def strptimeDMY (s : String) : Option (Nat × Nat × Nat) :=
  match splitOnChar '/' s.data with
  | [d, m, y] =>
    if dayFieldOK d && monthFieldOK m && yearFieldOK y then
      let dv := natOfDigits d
      let mv := natOfDigits m
      let yv := natOfDigits y
      if 1 ≤ yv ∧ dv ≤ daysInMonth yv mv then some (yv, mv, dv) else none
    else none
  | _ => none

/-- `datetime.datetime.strptime(s, "%H:%M:%S").time()`:
`some (hour, minute, second)` on success, `none` when CPython raises
`ValueError`. -/
def strptimeHMS (s : String) : Option (Nat × Nat × Nat) :=
  match splitOnChar ':' s.data with
  | [h, m, sec] =>
    if hourFieldOK h && minuteFieldOK m && secondFieldOK sec then
      let sv := natOfDigits sec
      if sv ≤ 59 then some (natOfDigits h, natOfDigits m, sv) else none
    else none
  | _ => none

/-! ## The per-cell converters (`_get_type_converters`) -/

/-- `convert_decimal` from `_get_type_converters`.  Mirrors:
`None`/`""` return `None`; otherwise `Decimal(str(value))` is attempted
under `except (ValueError, TypeError)`.  For a string argument a parse
failure raises `decimal.InvalidOperation`, which that clause does NOT
catch, so the exception escapes. -/
def convert_decimal (value : Option String) : Except PyExn (Option PyDecimal) :=
  match value with
  | none => .ok none
  | some s =>
    if s = "" then .ok none
    else
      match pyDecimalOfString s with
      | some d => .ok (some d)
      | none => .error .invalidOperation

/-- `convert_date` from `_get_type_converters`: `None`/`""` return `None`;
otherwise `strptime(value, "%d/%m/%Y").date()` under
`except (ValueError, TypeError)`, which catches every `strptime` failure,
so the function is total. -/
def convert_date (value : Option String) : Option (Nat × Nat × Nat) :=
  match value with
  | none => none
  | some s => if s = "" then none else strptimeDMY s

/-- `convert_time` from `_get_type_converters`: `None`/`""` return `None`;
otherwise `strptime(value, "%H:%M:%S").time()` under
`except (ValueError, TypeError)`, which catches every `strptime` failure,
so the function is total. -/
def convert_time (value : Option String) : Option (Nat × Nat × Nat) :=
  match value with
  | none => none
  | some s => if s = "" then none else strptimeHMS s

/-! ## Column definitions and the conversion pipeline -/

/-- PyArrow column types used by `_get_column_definitions`. -/
inductive PAType
  | paString
  | paDate32
  | paTime64us
  | paDecimal128s2
deriving DecidableEq, Repr

/-- One entry of `_get_column_definitions`:
(column name, DuckDB type, PyArrow type). -/
abbrev ColDef := String × String × PAType

/-- `_get_column_definitions`: the 16 hardcoded Monzo columns. -/
def column_definitions : List ColDef :=
  [("transaction_id", "VARCHAR", .paString),
   ("date", "DATE", .paDate32),
   ("time", "TIME", .paTime64us),
   ("type", "VARCHAR", .paString),
   ("name", "VARCHAR", .paString),
   ("emoji", "VARCHAR", .paString),
   ("category", "VARCHAR", .paString),
   ("amount", "DECIMAL(10,2)", .paDecimal128s2),
   ("currency", "VARCHAR", .paString),
   ("local_amount", "DECIMAL(10,2)", .paDecimal128s2),
   ("local_currency", "VARCHAR", .paString),
   ("notes_and_tags", "VARCHAR", .paString),
   ("address", "VARCHAR", .paString),
   ("receipt", "VARCHAR", .paString),
   ("description", "VARCHAR", .paString),
   ("category_split", "VARCHAR", .paString)]

/-- The 16 column names in defined order. -/
def monzoColumnNames : List String := column_definitions.map (fun d => d.1)

/-- Dispatch on `type_converters` membership: the three typed columns go
through their converter, everything else passes through verbatim
(`None` stays null, empty strings are kept — the `value if value != ""`
line is commented out in the source). -/
def applyConverter (t : PAType) (c : Cell) : Except PyExn PyValue :=
  match t with
  | .paDecimal128s2 =>
    match convert_decimal c with
    | .ok none => .ok .vnull
    | .ok (some d) => .ok (.vdec d)
    | .error e => .error e
  | .paDate32 =>
    .ok (match convert_date c with
         | none => .vnull
         | some (y, m, d) => .vdate y m d)
  | .paTime64us =>
    .ok (match convert_time c with
         | none => .vnull
         | some (h, mi, s) => .vtime h mi s)
  | .paString =>
    .ok (match c with
         | none => .vnull
         | some s => .vstr s)

/-- The inner loop body of `_convert_data_columns` for one row and column
index `i`: if `i < len(row)` convert `row[i]`, else pad with `None`
(no converter is applied to padding). -/
def cellValue (t : PAType) (i : Nat) (row : Row) : Except PyExn PyValue :=
  match row[i]? with
  | some cell => applyConverter t cell
  | none => .ok .vnull

/-- Effectful map over a list, aborting at the first raised exception —
the shape of the Python `for` loops here. -/
def mapExcept (f : α → Except PyExn β) : List α → Except PyExn (List β)
  | [] => .ok []
  | a :: as =>
    match f a with
    | .error e => .error e
    | .ok b =>
      match mapExcept f as with
      | .error e => .error e
      | .ok bs => .ok (b :: bs)

/-- One column of `_convert_data_columns`: the `column_data` list built row
by row for column index `i`. -/
def convertColumn (tableData : List Row) (i : Nat) (t : PAType) :
    Except PyExn (List PyValue) :=
  mapExcept (cellValue t i) tableData

/-- The `enumerate(column_definitions)` loop of `_convert_data_columns`,
carrying the current column index. -/
def convertColumnsFrom (tableData : List Row) (i : Nat) :
    List ColDef → Except PyExn (List (String × List PyValue))
  | [] => .ok []
  | (colName, _, t) :: ds =>
    match convertColumn tableData i t with
    | .error e => .error e
    | .ok col =>
      match convertColumnsFrom tableData (i + 1) ds with
      | .error e => .error e
      | .ok rest => .ok ((colName, col) :: rest)

/-- `_convert_data_columns`: raw rows (headers excluded) to the insertion
ordered dictionary of converted columns. -/
def _convert_data_columns (tableData : List Row)
    (columnDefinitions : List ColDef) :
    Except PyExn (List (String × List PyValue)) :=
  convertColumnsFrom tableData 0 columnDefinitions

/-- A PyArrow table: named columns in schema order. -/
structure PaTable where
  cols : List (String × List PyValue)
deriving DecidableEq, Repr

/-- `_create_pyarrow_table`: convert the data rows against the 16-column
schema. -/
def _create_pyarrow_table (tableData : List Row) : Except PyExn PaTable :=
  (_convert_data_columns tableData column_definitions).map PaTable.mk

/-- The `transactions` table held by the returned DuckDB connection: either
the empty table created by `CREATE TABLE` (`_create_empty_table`, keeping
the (name, DuckDB type) pairs), or a registered PyArrow table. -/
inductive TransactionsTable
  | emptySchema (defs : List (String × String))
  | arrow (t : PaTable)
deriving DecidableEq, Repr

/-- `_create_empty_table`: the `CREATE TABLE transactions (...)` statement
built from the column definitions. -/
def _create_empty_table (columnDefinitions : List ColDef) : TransactionsTable :=
  .emptySchema (columnDefinitions.map (fun d => (d.1, d.2.1)))

/-- Column names of the `transactions` table, in order. -/
def TransactionsTable.colNames : TransactionsTable → List String
  | .emptySchema defs => defs.map Prod.fst
  | .arrow t => t.cols.map Prod.fst

/-- Number of data rows of the `transactions` table (the empty-schema table
has none; an arrow table has one entry per column value list). -/
def TransactionsTable.numRows : TransactionsTable → Nat
  | .emptySchema _ => 0
  | .arrow t =>
    match t.cols with
    | [] => 0
    | c :: _ => c.2.length

/-- `duck_db`, applied to the raw rows that `self.data` holds:
`_validate_data_for_database` raises `ValueError` on empty data;
`_handle_empty_data` returns the empty 16-column table when
`len(data) <= 1`; otherwise the header row is dropped and the remaining
rows are converted into a PyArrow table and registered. -/
def duck_db (data : List Row) : Except PyExn TransactionsTable :=
  if data.isEmpty then .error .valueError
  else if data.length ≤ 1 then .ok (_create_empty_table column_definitions)
  else (_create_pyarrow_table (data.drop 1)).map TransactionsTable.arrow

/-! ## Credential lifecycle -/

/-- `google.auth.credentials.TokenState`. -/
inductive TokenState
  | fresh
  | stale
  | invalid
deriving DecidableEq, Repr

/-- An OAuth credential object: its token state plus a tag identifying the
underlying token, so that distinct credential objects are distinguishable. -/
structure Cred where
  tokenState : TokenState
  tag : Nat
deriving DecidableEq, Repr

/-- `Credentials.refresh(Request())` on success: the access token is renewed,
so the credential becomes FRESH. -/
def Cred.refreshed (c : Cred) : Cred := { c with tokenState := .fresh }

/-- Outcome of `keyring.get_password` for the fixed (service, username) key:
the call raises, returns `None`, or returns a blob that either parses into a
credential or fails `Credentials.from_authorized_user_info`/`json.loads`. -/
inductive KeyringRead
  | raise
  | absent
  | present (parsed : Option Cred)
deriving DecidableEq, Repr

/-- Behaviour of the external collaborators during one call: the keyring
read outcome, whether token refresh succeeds, whether `keyring.set_password`
succeeds, whether `keyring.delete_password` succeeds, and the credential the
interactive OAuth flow would produce. -/
structure World where
  keyringRead : KeyringRead
  refreshOk : Bool
  saveOk : Bool
  deleteOk : Bool
  flowCred : Cred
deriving DecidableEq, Repr

/-- Externally visible actions, recorded in call order. -/
inductive Event
  | keyringGet
  | refreshCall
  | persistCall
  | interactiveFlow
  | keyringDelete
deriving DecidableEq, Repr

/-- `_token_exists`: `keyring.get_password` under a catch-all; a raised
store access returns `False`, otherwise the result is `token_json is not
None`. -/
def _token_exists (w : World) : Bool × List Event :=
  match w.keyringRead with
  | .raise => (false, [.keyringGet])
  | .absent => (false, [.keyringGet])
  | .present _ => (true, [.keyringGet])

/-- `_add_credentials_from_token`: re-checks `_token_exists` (raising
`ValueError` if absent), reads the blob again, and parses it; any parse
failure is re-raised as `ValueError`. -/
def _add_credentials_from_token (w : World) : Except PyExn Cred × List Event :=
  let (tokenFound, t1) := _token_exists w
  if tokenFound then
    match w.keyringRead with
    | .present (some c) => (.ok c, t1 ++ [.keyringGet])
    | .present none => (.error .valueError, t1 ++ [.keyringGet])
    | _ => (.error .valueError, t1 ++ [.keyringGet])
  else (.error .valueError, t1)

/-- `_refresh_token`: raises `ValueError` if no credential is set; otherwise
calls `self._credentials.refresh(Request())`, which renews the token or
raises `RefreshError`. -/
def _refresh_token (mem : Option Cred) (w : World) :
    Option Cred × Except PyExn Unit × List Event :=
  match mem with
  | some c =>
    if w.refreshOk then (some c.refreshed, .ok (), [.refreshCall])
    else (some c, .error .refreshError, [.refreshCall])
  | none => (none, .error .valueError, [])

/-- `_save_credentials`: raises `ValueError` if no credential is set;
otherwise `keyring.set_password`, whose failure is re-raised as
`ValueError`. -/
def _save_credentials (mem : Option Cred) (w : World) :
    Except PyExn Unit × List Event :=
  match mem with
  | none => (.error .valueError, [])
  | some _ =>
    if w.saveOk then (.ok (), [.persistCall])
    else (.error .valueError, [.persistCall])

/-- `_add_credentials_from_secret`: runs the interactive OAuth flow and
stores the resulting credential in memory. -/
def _add_credentials_from_secret (w : World) : Option Cred × List Event :=
  (some w.flowCred, [.interactiveFlow])

/-- Result of one `credentials()` call: the returned credential (or raised
exception), the in-memory `_credentials` slot afterwards, and the ordered
trace of external actions. -/
structure CredCall where
  ret : Except PyExn Cred
  mem : Option Cred
  trace : List Event
deriving Repr

/-- The final `if self._credentials is None: raise` + `return` of
`credentials()`. -/
def credentialsFinal (mem : Option Cred) (tr : List Event) : CredCall :=
  match mem with
  | none => ⟨.error .valueError, none, tr⟩
  | some c => ⟨.ok c, some c, tr⟩

/-- The `except ValueError` handler of `credentials()`: interactive flow
followed by a save whose own failure propagates; then the final return. -/
def credentialsRescue (w : World) (tr : List Event) : CredCall :=
  let (mem, t1) := _add_credentials_from_secret w
  let (saveRes, t2) := _save_credentials mem w
  match saveRes with
  | .error e => ⟨.error e, mem, tr ++ t1 ++ t2⟩
  | .ok () => credentialsFinal mem (tr ++ t1 ++ t2)

/-- `credentials()`.  With a credential already in memory the leading
`not self._credentials` test short-circuits (no keyring access at all).
Otherwise, if a token exists it is loaded; `token_state` is captured once
and drives the STALE branch (refresh + save) and the INVALID branch
(interactive flow + save); every `ValueError` inside the `try` falls into
the rescue handler; a `RefreshError` propagates uncaught. -/
def credentials (mem0 : Option Cred) (w : World) : CredCall :=
  match mem0 with
  | some c => credentialsFinal (some c) []
  | none =>
    let (tokenFound, t0) := _token_exists w
    if tokenFound then
      let (loadRes, t1) := _add_credentials_from_token w
      match loadRes with
      | .error .valueError => credentialsRescue w (t0 ++ t1)
      | .error e => ⟨.error e, none, t0 ++ t1⟩
      | .ok c =>
        let tokenState := c.tokenState
        if tokenState = .stale then
          let (mem, refreshRes, t2) := _refresh_token (some c) w
          match refreshRes with
          | .error .valueError => credentialsRescue w (t0 ++ t1 ++ t2)
          | .error e => ⟨.error e, mem, t0 ++ t1 ++ t2⟩
          | .ok () =>
            let (saveRes, t3) := _save_credentials mem w
            match saveRes with
            | .error .valueError => credentialsRescue w (t0 ++ t1 ++ t2 ++ t3)
            | .error e => ⟨.error e, mem, t0 ++ t1 ++ t2 ++ t3⟩
            | .ok () => credentialsFinal mem (t0 ++ t1 ++ t2 ++ t3)
        else if tokenState = .invalid then
          let (mem, t2) := _add_credentials_from_secret w
          let (saveRes, t3) := _save_credentials mem w
          match saveRes with
          | .error .valueError => credentialsRescue w (t0 ++ t1 ++ t2 ++ t3)
          | .error e => ⟨.error e, mem, t0 ++ t1 ++ t2 ++ t3⟩
          | .ok () => credentialsFinal mem (t0 ++ t1 ++ t2 ++ t3)
        else credentialsFinal (some c) (t0 ++ t1)
    else
      let (mem, t1) := _add_credentials_from_secret w
      let (saveRes, t2) := _save_credentials mem w
      match saveRes with
      | .error e => ⟨.error e, mem, t0 ++ t1 ++ t2⟩
      | .ok () => credentialsFinal mem (t0 ++ t1 ++ t2)

/-- `keyring.delete_password`: succeeds or raises. -/
def keyringDeletePassword (w : World) : Except PyExn Unit × List Event :=
  if w.deleteOk then (.ok (), [.keyringDelete]) else (.error .valueError, [.keyringDelete])

/-- `clear_credentials()`: best-effort delete under a catch-all `except`,
then unconditionally `self._credentials = None`.  Returns (raised
exception if any, in-memory slot afterwards, trace). -/
def clear_credentials (_mem0 : Option Cred) (w : World) :
    Except PyExn Unit × Option Cred × List Event :=
  let (delRes, t1) := keyringDeletePassword w
  match delRes with
  | .ok () => (.ok (), none, t1)
  | .error _ => (.ok (), none, t1)

/-! ## The lazy `data` accessor -/

/-- One access of the `data` property: if the cached `_data` is falsy
(empty list), `fetch_data()` stores the remote result and it is returned;
otherwise the cache is returned.  Result: (returned rows, cache afterwards,
number of remote fetches performed). -/
def dataAccess (cache remote : List Row) : List Row × List Row × Nat :=
  if cache.isEmpty then (remote, remote, 1) else (cache, cache, 0)

/-- `n` successive accesses of the `data` property against a remote source
that keeps returning `remote`: final cache and total number of fetches. -/
def dataAccessN (remote : List Row) : Nat → List Row → List Row × Nat
  | 0, cache => (cache, 0)
  | n + 1, cache =>
    let (_, cache2, f) := dataAccess cache remote
    let (cacheF, fs) := dataAccessN remote n cache2
    (cacheF, f + fs)

/-! ## Concrete example data for witnesses -/

/-- A single data row with zero cells: every column must be padded. -/
def exampleShortData : List Row := [[]]

/-- The converted columns for `exampleShortData`: one null per column. -/
def exampleShortCols : List (String × List PyValue) :=
  column_definitions.map (fun d => (d.1, [PyValue.vnull]))

/-- A header row (labels are arbitrary and ignored by the loader). -/
def exampleHeader : Row :=
  [some "Transaction ID", some "Date", some "Time", some "Type", some "Name",
   some "Emoji", some "Category", some "Amount", some "Currency",
   some "Local amount", some "Local currency", some "Notes and #tags",
   some "Address", some "Receipt", some "Description", some "Category split"]

/-- One well-formed 16-cell transaction row. -/
def exampleDataRow : Row :=
  [some "tx_1", some "15/06/2025", some "09:30:15", some "Card payment",
   some "Costa Coffee", some "C", some "Coffee shop", some "-4.50",
   some "GBP", some "-4.50", some "GBP", some "", some "", some "",
   some "COSTA COFFEE", some ""]

/-- The table built from `exampleHeader :: [exampleDataRow]`. -/
def exampleTable : PaTable :=
  ⟨[("transaction_id", [.vstr "tx_1"]),
    ("date", [.vdate 2025 6 15]),
    ("time", [.vtime 9 30 15]),
    ("type", [.vstr "Card payment"]),
    ("name", [.vstr "Costa Coffee"]),
    ("emoji", [.vstr "C"]),
    ("category", [.vstr "Coffee shop"]),
    ("amount", [.vdec (.num true 450 (-2))]),
    ("currency", [.vstr "GBP"]),
    ("local_amount", [.vdec (.num true 450 (-2))]),
    ("local_currency", [.vstr "GBP"]),
    ("notes_and_tags", [.vstr ""]),
    ("address", [.vstr ""]),
    ("receipt", [.vstr ""]),
    ("description", [.vstr "COSTA COFFEE"]),
    ("category_split", [.vstr ""])]⟩

/-- A persisted STALE credential. -/
def staleCred : Cred := ⟨.stale, 7⟩

/-- A world with a persisted STALE token whose refresh and save succeed. -/
def staleWorld : World := ⟨.present (some staleCred), true, true, true, ⟨.fresh, 99⟩⟩

/-! ## Helper lemmas about the conversion pipeline -/

theorem mapExcept_ok_length {α β : Type} {f : α → Except PyExn β} {l : List α}
    {ys : List β} (h : mapExcept f l = .ok ys) : ys.length = l.length := by
  induction l generalizing ys with
  | nil =>
    simp only [mapExcept] at h
    cases h
    rfl
  | cons a as ih =>
    simp only [mapExcept] at h
    cases hfa : f a <;> rw [hfa] at h
    · cases h
    case ok b =>
      cases hrec : mapExcept f as <;> rw [hrec] at h
      · cases h
      case ok bs =>
        cases h
        simp [ih hrec]

theorem mapExcept_ok_getElem {α β : Type} {f : α → Except PyExn β} {l : List α}
    {ys : List β} (h : mapExcept f l = .ok ys) {k : Nat} {a : α}
    (ha : l[k]? = some a) : ∃ b, ys[k]? = some b ∧ f a = .ok b := by
  induction l generalizing ys k with
  | nil => simp at ha
  | cons x xs ih =>
    simp only [mapExcept] at h
    cases hfa : f x <;> rw [hfa] at h
    · cases h
    case ok b =>
      cases hrec : mapExcept f xs <;> rw [hrec] at h
      · cases h
      case ok bs =>
        cases h
        cases k with
        | zero =>
          simp only [List.getElem?_cons_zero, Option.some.injEq] at ha
          subst ha
          exact ⟨b, by simp, hfa⟩
        | succ k =>
          simp only [List.getElem?_cons_succ] at ha ⊢
          exact ih hrec ha

theorem mapExcept_congr {α β : Type} {f g : α → Except PyExn β} {l : List α}
    (h : ∀ a ∈ l, f a = g a) : mapExcept f l = mapExcept g l := by
  induction l with
  | nil => rfl
  | cons x xs ih =>
    simp only [mapExcept]
    rw [h x (by simp), ih (fun a ha => h a (by simp [ha]))]

theorem mapExcept_map {α β γ : Type} {f : β → Except PyExn γ} {g : α → β}
    {l : List α} : mapExcept f (l.map g) = mapExcept (fun a => f (g a)) l := by
  induction l with
  | nil => rfl
  | cons x xs ih => simp only [List.map, mapExcept, ih]

theorem cellValue_take {t : PAType} {i n : Nat} (h : i < n) (row : Row) :
    cellValue t i (row.take n) = cellValue t i row := by
  unfold cellValue
  rw [List.getElem?_take]
  simp [h]

theorem cellValue_pad {t : PAType} {i : Nat} {row : Row} (h : row.length ≤ i) :
    cellValue t i row = .ok .vnull := by
  unfold cellValue
  rw [List.getElem?_eq_none h]

theorem convertColumnsFrom_ok_names {td : List Row} {ds : List ColDef} {i : Nat}
    {cols : List (String × List PyValue)}
    (h : convertColumnsFrom td i ds = .ok cols) :
    cols.map Prod.fst = ds.map (fun d => d.1) := by
  induction ds generalizing i cols with
  | nil =>
    simp only [convertColumnsFrom] at h
    cases h
    rfl
  | cons d ds ih =>
    obtain ⟨colName, duckTy, t⟩ := d
    simp only [convertColumnsFrom] at h
    cases hc : convertColumn td i t <;> rw [hc] at h
    · cases h
    case ok col =>
      cases hrec : convertColumnsFrom td (i + 1) ds <;> rw [hrec] at h
      · cases h
      case ok rest =>
        cases h
        simp [ih hrec]

theorem convertColumnsFrom_ok_lengths {td : List Row} {ds : List ColDef}
    {i : Nat} {cols : List (String × List PyValue)}
    (h : convertColumnsFrom td i ds = .ok cols) :
    ∀ c ∈ cols, c.2.length = td.length := by
  induction ds generalizing i cols with
  | nil =>
    simp only [convertColumnsFrom] at h
    cases h
    simp
  | cons d ds ih =>
    obtain ⟨colName, duckTy, t⟩ := d
    simp only [convertColumnsFrom] at h
    cases hc : convertColumn td i t <;> rw [hc] at h
    · cases h
    case ok col =>
      cases hrec : convertColumnsFrom td (i + 1) ds <;> rw [hrec] at h
      · cases h
      case ok rest =>
        cases h
        intro c hc'
        rcases List.mem_cons.mp hc' with h1 | h2
        · subst h1
          exact mapExcept_ok_length hc
        · exact ih hrec c h2

theorem convertColumnsFrom_ok_col {td : List Row} {ds : List ColDef} {i : Nat}
    {cols : List (String × List PyValue)}
    (h : convertColumnsFrom td i ds = .ok cols) {j : Nat}
    {p : String × List PyValue} (hp : cols[j]? = some p) :
    ∃ d, ds[j]? = some d ∧ p.1 = d.1 ∧ convertColumn td (i + j) d.2.2 = .ok p.2 := by
  induction ds generalizing i j cols with
  | nil =>
    simp only [convertColumnsFrom] at h
    cases h
    simp at hp
  | cons d ds ih =>
    obtain ⟨colName, duckTy, t⟩ := d
    simp only [convertColumnsFrom] at h
    cases hc : convertColumn td i t <;> rw [hc] at h
    · cases h
    case ok col =>
      cases hrec : convertColumnsFrom td (i + 1) ds <;> rw [hrec] at h
      · cases h
      case ok rest =>
        cases h
        cases j with
        | zero =>
          simp only [List.getElem?_cons_zero, Option.some.injEq] at hp
          subst hp
          exact ⟨(colName, duckTy, t), by simp, rfl, by simpa using hc⟩
        | succ j =>
          simp only [List.getElem?_cons_succ] at hp ⊢
          obtain ⟨d', hd', hname, hcol⟩ := ih hrec hp
          refine ⟨d', hd', hname, ?_⟩
          have : i + (j + 1) = i + 1 + j := by omega
          rw [this]
          exact hcol

theorem convertColumnsFrom_take {td : List Row} {ds : List ColDef} {i n : Nat}
    (h : i + ds.length ≤ n) :
    convertColumnsFrom (td.map (fun r => r.take n)) i ds
      = convertColumnsFrom td i ds := by
  induction ds generalizing i with
  | nil => rfl
  | cons d ds ih =>
    obtain ⟨colName, duckTy, t⟩ := d
    have hi : i < n := by
      simp only [List.length_cons] at h
      omega
    have hcol : convertColumn (td.map (fun r => r.take n)) i t
        = convertColumn td i t := by
      unfold convertColumn
      rw [mapExcept_map]
      exact mapExcept_congr (fun r _ => cellValue_take hi r)
    have hrest : i + 1 + ds.length ≤ n := by
      simp only [List.length_cons] at h
      omega
    simp only [convertColumnsFrom, hcol, ih hrest]

/-! ## Claim theorems -/

/-- C1: evaluation of `convert_decimal` at the claim's inputs.  The inputs
`"-4.50"`, `None` and `""` behave as specified, but the unparseable input
`"abc"` makes `decimal.Decimal` raise `InvalidOperation`, which the
surrounding `except (ValueError, TypeError)` clause does not catch, so the
coercion raises instead of degrading to null: the claim's
"coercion never raises" fails on the code. -/
theorem c1_convert_decimal_eval :
    convert_decimal (some "-4.50")
        = Except.ok (some (PyDecimal.num true 450 (-2)))
      ∧ convert_decimal none = Except.ok none
      ∧ convert_decimal (some "") = Except.ok none
      ∧ convert_decimal (some "abc") = Except.error PyExn.invalidOperation :=
  ⟨rfl, rfl, rfl, rfl⟩

/-- C2 counterexample: on the empty raw-row input (0 rows),
`duck_db` raises `ValueError` from `_validate_data_for_database` instead of
returning a 0-row table with the 16 columns, so the claim fails at the
input `[]`. -/
theorem c2_counterexample :
    duck_db ([] : List Row) = Except.error PyExn.valueError
      ∧ duck_db ([] : List Row)
          ≠ Except.ok (_create_empty_table column_definitions) :=
  ⟨rfl, by
    intro hcontra
    rw [show duck_db ([] : List Row) = Except.error PyExn.valueError from rfl]
      at hcontra
    exact Except.noConfusion hcontra⟩

/-- C2 amended: with 0 raw rows `build_table` raises the
data-unavailable `ValueError`; with exactly 1 raw row (a header only,
whatever its content) it returns a table with 0 rows and exactly the 16
defined columns. -/
theorem c2_amended :
    duck_db ([] : List Row) = Except.error PyExn.valueError
      ∧ ∀ row : Row,
          duck_db [row] = Except.ok (_create_empty_table column_definitions)
            ∧ (_create_empty_table column_definitions).colNames
                = monzoColumnNames
            ∧ monzoColumnNames.length = 16
            ∧ (_create_empty_table column_definitions).numRows = 0 :=
  ⟨rfl, fun _ => ⟨rfl, rfl, rfl, rfl⟩⟩

/-- C3: whenever `_convert_data_columns` completes without raising, it
produces exactly 16 columns (so each table row has exactly 16 values),
every column holds one value per input row, cells beyond the 16th of any
row are ignored (truncating every row to 16 cells gives the same output),
and a row shorter than `j+1` cells contributes null at column `j`
(missing trailing positions are padded with null). -/
theorem c3_row_shape (td : List Row) (cols : List (String × List PyValue))
    (h : _convert_data_columns td column_definitions = Except.ok cols) :
    cols.length = 16
      ∧ (∀ c ∈ cols, c.2.length = td.length)
      ∧ _convert_data_columns (td.map (fun r => r.take 16)) column_definitions
          = Except.ok cols
      ∧ ∀ (j : Nat) (p : String × List PyValue), cols[j]? = some p →
          ∀ (k : Nat) (row : Row), td[k]? = some row →
            row.length ≤ j → p.2[k]? = some PyValue.vnull := by
  refine ⟨?_, convertColumnsFrom_ok_lengths h, ?_, ?_⟩
  · have hnames := convertColumnsFrom_ok_names h
    have : (cols.map Prod.fst).length
        = (column_definitions.map (fun d => d.1)).length := by rw [hnames]
    simpa using this
  · unfold _convert_data_columns at h ⊢
    rw [convertColumnsFrom_take (by rfl)]
    exact h
  · intro j p hp k row hk hshort
    obtain ⟨d, _, _, hcol⟩ := convertColumnsFrom_ok_col h hp
    obtain ⟨b, hb, hcell⟩ := mapExcept_ok_getElem hcol hk
    rw [cellValue_pad (by omega)] at hcell
    cases hcell
    exact hb

/-- C3 witness: a single data row with zero cells converts to 16 columns
of a single null each. -/
theorem c3_row_shape_witness :
    _convert_data_columns exampleShortData column_definitions
        = Except.ok exampleShortCols
      ∧ (exampleShortCols.length = 16
          ∧ (∀ c ∈ exampleShortCols, c.2.length = exampleShortData.length)
          ∧ _convert_data_columns (exampleShortData.map (fun r => r.take 16))
              column_definitions = Except.ok exampleShortCols
          ∧ ∀ (j : Nat) (p : String × List PyValue),
              exampleShortCols[j]? = some p →
                ∀ (k : Nat) (row : Row), exampleShortData[k]? = some row →
                  row.length ≤ j → p.2[k]? = some PyValue.vnull) :=
  ⟨rfl, c3_row_shape exampleShortData exampleShortCols rfl⟩

/-- C4: for raw data with more than one row, a successful `duck_db` call
drops exactly the header row: the result is a PyArrow-backed table whose
columns are exactly the 16 defined names in defined order and whose every
column holds exactly N−1 values; replacing the header row by any other row
yields the same table, so the result is independent of the header
labels. -/
theorem c4_header_discard (data : List Row) (t : TransactionsTable)
    (hN : 1 < data.length) (h : duck_db data = Except.ok t) :
    (∃ pt : PaTable, t = TransactionsTable.arrow pt
        ∧ pt.cols.map Prod.fst = monzoColumnNames
        ∧ ∀ c ∈ pt.cols, c.2.length = data.length - 1)
      ∧ t.colNames = monzoColumnNames
      ∧ ∀ hdr : Row, duck_db (hdr :: data.drop 1) = Except.ok t := by
  match data, hN with
  | a :: as, hN =>
    have has : ¬ (a :: as).length ≤ 1 := by
      simp only [List.length_cons] at hN ⊢
      omega
    rw [duck_db, if_neg (by simp), if_neg has] at h
    unfold _create_pyarrow_table at h
    cases hconv : _convert_data_columns ((a :: as).drop 1) column_definitions
      <;> rw [hconv] at h
    · cases h
    case ok cols =>
      cases h
      have hnames := convertColumnsFrom_ok_names hconv
      have hlens := convertColumnsFrom_ok_lengths hconv
      refine ⟨⟨⟨cols⟩, rfl, hnames, ?_⟩, hnames, ?_⟩
      · intro c hc
        have := hlens c hc
        simpa using this
      · intro hdr
        have hhdr : ¬ (hdr :: (a :: as).drop 1).length ≤ 1 := by
          simp only [List.length_cons, List.length_drop] at hN ⊢
          omega
        rw [duck_db, if_neg (by simp), if_neg hhdr]
        unfold _create_pyarrow_table
        rw [show (hdr :: (a :: as).drop 1).drop 1 = (a :: as).drop 1 from rfl]
        rw [hconv]
        rfl

/-- C4 witness: a header row plus one well-formed transaction row yields
the one-row table `exampleTable`. -/
theorem c4_header_discard_witness :
    1 < ([exampleHeader, exampleDataRow] : List Row).length
      ∧ duck_db [exampleHeader, exampleDataRow]
          = Except.ok (TransactionsTable.arrow exampleTable)
      ∧ ((∃ pt : PaTable,
            TransactionsTable.arrow exampleTable = TransactionsTable.arrow pt
              ∧ pt.cols.map Prod.fst = monzoColumnNames
              ∧ ∀ c ∈ pt.cols,
                  c.2.length = ([exampleHeader, exampleDataRow] : List Row).length - 1)
          ∧ (TransactionsTable.arrow exampleTable).colNames = monzoColumnNames
          ∧ ∀ hdr : Row,
              duck_db (hdr :: ([exampleHeader, exampleDataRow] : List Row).drop 1)
                = Except.ok (TransactionsTable.arrow exampleTable)) :=
  ⟨by decide, rfl,
    c4_header_discard [exampleHeader, exampleDataRow]
      (TransactionsTable.arrow exampleTable) (by decide) rfl⟩

/-- C5: date cells parse only the `%d/%m/%Y` format (`"15/06/2025"` gives
2025-06-15, the ISO form `"2025-06-15"` gives null) and time cells parse
only `%H:%M:%S` (`"09:30:15"` gives 09:30:15, malformed inputs give
null); the converters never raise (they are total functions). -/
theorem c5_date_time_coercion :
    convert_date (some "15/06/2025") = some (2025, 6, 15)
      ∧ convert_date (some "2025-06-15") = none
      ∧ convert_time (some "09:30:15") = some (9, 30, 15)
      ∧ convert_time (some "abc") = none
      ∧ convert_time (some "25:00:00") = none
      ∧ convert_time (some "09:30") = none
      ∧ convert_date none = none
      ∧ convert_time none = none :=
  ⟨rfl, rfl, rfl, rfl, rfl, rfl, rfl, rfl⟩

/-- C6: starting with no in-memory credential and a persisted STALE token,
when the refresh call and the keyring save succeed, `credentials()`
performs exactly one refresh call followed by exactly one persist call and
never invokes the interactive flow; it returns the refreshed (FRESH)
credential. -/
theorem c6_stale_refresh (c : Cred) (w : World)
    (hread : w.keyringRead = KeyringRead.present (some c))
    (hstale : c.tokenState = TokenState.stale)
    (hrefresh : w.refreshOk = true) (hsave : w.saveOk = true) :
    credentials none w =
        ⟨Except.ok c.refreshed, some c.refreshed,
          [Event.keyringGet, Event.keyringGet, Event.keyringGet,
            Event.refreshCall, Event.persistCall]⟩
      ∧ (credentials none w).trace.count Event.refreshCall = 1
      ∧ (credentials none w).trace.count Event.persistCall = 1
      ∧ (credentials none w).trace.count Event.interactiveFlow = 0 := by
  obtain ⟨kr, ro, so, dk, fc⟩ := w
  dsimp only at hread hrefresh hsave
  subst hread hrefresh hsave
  obtain ⟨ts, tag⟩ := c
  dsimp only [Cred.tokenState] at hstale
  subst hstale
  exact ⟨rfl, rfl, rfl, rfl⟩

/-- C6 witness: the STALE scenario at a concrete credential and world. -/
theorem c6_stale_refresh_witness :
    (staleWorld.keyringRead = KeyringRead.present (some staleCred)
        ∧ staleCred.tokenState = TokenState.stale
        ∧ staleWorld.refreshOk = true ∧ staleWorld.saveOk = true)
      ∧ (credentials none staleWorld =
            ⟨Except.ok staleCred.refreshed, some staleCred.refreshed,
              [Event.keyringGet, Event.keyringGet, Event.keyringGet,
                Event.refreshCall, Event.persistCall]⟩
          ∧ (credentials none staleWorld).trace.count Event.refreshCall = 1
          ∧ (credentials none staleWorld).trace.count Event.persistCall = 1
          ∧ (credentials none staleWorld).trace.count Event.interactiveFlow = 0) :=
  ⟨⟨rfl, rfl, rfl, rfl⟩, c6_stale_refresh staleCred staleWorld rfl rfl rfl rfl⟩

/-- C7: `clear_credentials()` never raises to its caller and always resets
the in-memory credential slot to none, whatever the initial slot and
whether or not the keyring deletion throws; exactly one delete is
attempted. -/
theorem c7_clear_credentials (mem0 : Option Cred) (w : World) :
    clear_credentials mem0 w = (Except.ok (), none, [Event.keyringDelete]) := by
  unfold clear_credentials keyringDeletePassword
  by_cases h : w.deleteOk <;> simp [h]

/-- Accessing `data` with a non-empty cache performs no fetch and leaves
the cache unchanged, for any number of accesses. -/
theorem dataAccessN_cached {remote cache : List Row} (h : cache ≠ [])
    (n : Nat) : dataAccessN remote n cache = (cache, 0) := by
  have hne : cache.isEmpty = false := by
    cases cache
    · exact absurd rfl h
    · rfl
  induction n with
  | zero => rfl
  | succ n ih => simp [dataAccessN, dataAccess, hne, ih]

/-- C8 counterexample: when the remote source returns zero rows, the lazy
`data` accessor refetches on every access — two accesses starting from an
empty cache perform two fetches, not one. -/
theorem c8_counterexample :
    (dataAccessN ([] : List Row) 2 []).2 = 2
      ∧ (dataAccessN ([] : List Row) 2 []).2 ≠ 1 :=
  ⟨rfl, by decide⟩

/-- C8 amended: if the remote fetch returns a non-empty result, the lazy
`data` accessor fetches exactly once over any number of accesses starting
from an empty cache, and every access returns the fetched rows; if the
remote returns zero rows, the empty cache is indistinguishable from "not
yet fetched" and every access refetches. -/
theorem c8_lazy_fetch_amended (remote : List Row) (n : Nat)
    (h : remote ≠ []) :
    (dataAccessN remote (n + 1) []).2 = 1
      ∧ (dataAccessN remote (n + 1) []).1 = remote := by
  simp only [dataAccessN, dataAccess, List.isEmpty_nil, if_true]
  rw [dataAccessN_cached h n]
  exact ⟨rfl, rfl⟩

/-- C8 witness: one non-empty remote row, two accesses, one fetch. -/
theorem c8_lazy_fetch_witness :
    ([[some "x"]] : List Row) ≠ []
      ∧ ((dataAccessN ([[some "x"]] : List Row) 2 []).2 = 1
          ∧ (dataAccessN ([[some "x"]] : List Row) 2 []).1 = [[some "x"]]) :=
  ⟨by decide, c8_lazy_fetch_amended [[some "x"]] 1 (by decide)⟩

/-- C9: `_token_exists` is total (it returns a boolean for every store
outcome, including a raised store access) and returns `true` exactly when
a token blob is present; in particular a store-access error yields
`false`. -/
theorem c9_token_exists (w : World) :
    ((_token_exists w).1 = true
        ↔ ∃ p : Option Cred, w.keyringRead = KeyringRead.present p)
      ∧ ((_token_exists w).1 = false
        ↔ (w.keyringRead = KeyringRead.raise
            ∨ w.keyringRead = KeyringRead.absent)) := by
  cases h : w.keyringRead <;> simp [_token_exists, h]

/-- C10: with an in-memory credential already set, `credentials()` returns
exactly that object, leaves the in-memory slot holding it, and produces an
empty action trace — no keyring read, no refresh call, no persist, no
interactive flow, no deletion — whatever the credential's token state and
whatever the external world would do. -/
theorem c10_in_memory_short_circuit (c : Cred) (w : World) :
    credentials (some c) w = ⟨Except.ok c, some c, []⟩ := rfl
